import Mathlib

/-!
# SafeRide Guardian — verification of the detection-and-escalation core

Shallow embedding of the accident-detection pipeline implemented in
`src/src/components/VehicleVisualization.tsx` (the `App` component and its
helpers): the low-pass signal conditioner, the orientation estimator, the
vehicle-specific override rules, the connection heartbeat, and the accident
escalation state machine (`handleNewData`, `handleAccidentDetected`,
`sendEmergencyAlerts`, `handleCancelAccident`).

Numeric sensor values are embedded as rationals (`ℚ`); the trigonometric
orientation estimator uses reals (`ℝ`).  Wall-clock instants are `Nat`
milliseconds.  The base anomaly detector (`AccidentDetectionService`,
`lib/accidentDetection`) is not part of the available sources; its output is
treated as an arbitrary input (`DetectionResult`) on each reading, and its
history/reset behaviour is modelled from the spec where a claim needs it.
-/

namespace SafeRide

/-- Vehicle profile, mirroring `type VehicleType = 'scooter' | 'car'`. -/
inductive VehicleType where
  | scooter
  | car
deriving DecidableEq, Repr

/-- Output of the base anomaly detector, mirroring the object returned by
`detectionService.current.detectWithHistory()`: a boolean accident flag and a
danger percentage.  The detector internals are external to the sources, so the
state machine below takes this value as an arbitrary per-reading input. -/
structure DetectionResult where
  isAccident : Bool
  dangerPercentage : ℚ
deriving DecidableEq, Repr

/-- One converted sensor reading (smoothing input), mirroring the fields of
`SensorData` that the detection path consumes: accelerometer and gyroscope
components after unit conversion. -/
structure Reading where
  accX : ℚ
  accY : ℚ
  accZ : ℚ
  gyroX : ℚ
  gyroY : ℚ
  gyroZ : ℚ
deriving DecidableEq, Repr

/-- `lowPassFilter(current, previous, alpha) = previous + alpha * (current - previous)`,
mirroring the helper at the top of `App`. -/
def lowPassFilter (current previous alpha : ℚ) : ℚ :=
  previous + alpha * (current - previous)

/-- Iterated smoothing of the constant input `c` starting from state `s₀`:
`smoothIter c s₀ α n` is the filter state after `n` applications of
`lowPassFilter c · α`. -/
def smoothIter (c s₀ alpha : ℚ) : Nat → ℚ
  | 0 => s₀
  | n + 1 => lowPassFilter c (smoothIter c s₀ alpha n) alpha

/-- The vehicle-specific override block of `handleNewData` (lines 296–313):
starting from the base detector output, a scooter reading with smoothed
`z < -0.5` forces `(true, 100)`, a scooter reading with `|z| < 0.4` forces
`(true, max danger 80)`, and a car reading with `|z| < 0.3` forces
`(true, max danger 90)`.  Returns `(shouldTrigger, finalDanger)`. -/
def applyOverrides (vt : VehicleType) (result : DetectionResult) (zValue : ℚ) :
    Bool × ℚ :=
  match vt with
  | .scooter =>
      let isUpsideDown := zValue < -(1/2)
      let isTippedOver := |zValue| < 2/5
      if isUpsideDown ∨ isTippedOver then
        (true, if isUpsideDown then 100 else max result.dangerPercentage 80)
      else
        (result.isAccident, result.dangerPercentage)
  | .car =>
      if |zValue| < 3/10 then
        (true, max result.dangerPercentage 90)
      else
        (result.isAccident, result.dangerPercentage)

/-- The heartbeat computation (heartbeat interval effect, lines 245–262):
`connected = (now - lastPacketTime) < 10000`, with a strict comparison.
Times are integer milliseconds. -/
def heartbeatConnected (now lastPacketTime : ℤ) : Bool :=
  decide (now - lastPacketTime < 10000)

/-- Status column of an `accident_logs` row. -/
inductive LogStatus where
  | pending
  | confirmed
  | cancelled
deriving DecidableEq, Repr

/-- An `accident_logs` row, restricted to the columns the state machine
reads or writes. -/
structure AccidentLog where
  id : Nat
  dangerPercentage : ℚ
  status : LogStatus
  userResponded : Bool
  emailsSent : Bool
deriving DecidableEq, Repr

/-- `emailType` field of an outbound alert request. -/
inductive EmailType where
  | userConfirmation
  | emergencyAlert
deriving DecidableEq, Repr

/-- The mutable state of the `App` component that the escalation workflow
touches:

* `activeAccident` — the `activeAccident` React state (`{id, …} | null`);
* `isTriggered` — the `isTriggered` ref (the trigger latch);
* `escalationTimer` — the armed 30 000 ms `setTimeout`: absolute fire time
  together with the accident id and the settings row captured by its closure;
* `cooldownTimer` — the pending 5 000 ms `setTimeout` that clears the latch:
  absolute fire time;
* `prevAccel` — the `prevAccel` smoothing ref;
* `detectorHistory` — the readings fed to `detectionService.addReading`.
  Modelled from the spec: `lib/accidentDetection` is not in the sources; per
  spec §4.3 `addReading` appends to a history and `reset()` clears it;
* `logs` — the `accident_logs` persistence store;
* `alertsSent` — every alert request posted to `send-accident-alert`,
  as `(emailType, accidentId)` pairs, in order;
* `nextId` — id generator for inserted rows. -/
structure AppState where
  activeAccident : Option Nat
  isTriggered : Bool
  escalationTimer : Option (Nat × Nat × Bool)
  cooldownTimer : Option Nat
  prevAccel : ℚ × ℚ × ℚ
  detectorHistory : List Reading
  logs : List AccidentLog
  alertsSent : List (EmailType × Nat)
  nextId : Nat
deriving DecidableEq, Repr

/-- Initial component state: no active accident, latch clear, no timers,
`prevAccel = {x: 0, y: 0, z: 1}` (line 217), empty history and stores. -/
def initialState : AppState :=
  { activeAccident := none
    isTriggered := false
    escalationTimer := none
    cooldownTimer := none
    prevAccel := (0, 0, 1)
    detectorHistory := []
    logs := []
    alertsSent := []
    nextId := 0 }

/-- Apply a status update to the row with the given id, mirroring
`supabase.from('accident_logs').update(…).eq('id', id)`. -/
def updateLog (logs : List AccidentLog) (id : Nat) (f : AccidentLog → AccidentLog) :
    List AccidentLog :=
  logs.map fun l => if l.id = id then f l else l

/-- `handleAccidentDetected` (lines 350–396): insert a pending
`accident_logs` row; on insert failure (`logError || !accidentLog`) return
early — no state transition, no timer.  Otherwise set the active accident,
post a `user_confirmation` alert when a settings row exists, and arm the
30 000 ms escalation timeout (capturing the accident id and the settings
row in its closure). -/
def handleAccidentDetected (st : AppState) (now : Nat) (danger : ℚ)
    (insertFails hasSettings : Bool) : AppState :=
  if insertFails then st
  else
    let id := st.nextId
    let st1 : AppState :=
      { st with
        logs := st.logs ++ [{ id := id, dangerPercentage := danger,
                              status := .pending, userResponded := false,
                              emailsSent := false }]
        nextId := id + 1
        activeAccident := some id }
    let st2 : AppState :=
      if hasSettings then
        { st1 with alertsSent := st1.alertsSent ++ [(.userConfirmation, id)] }
      else st1
    { st2 with escalationTimer := some (now + 30000, id, hasSettings) }

/-- `handleNewData` (lines 267–326), restricted to the detection path: smooth
the raw accelerometer with `lowPassFilter` at alpha 0.3 and update `prevAccel`,
feed the reading to the detector history, apply the vehicle overrides to the
base detector output using the smoothed z-axis, and — when
`shouldTrigger && !activeAccident && !isTriggered.current` — set the latch and
run `handleAccidentDetected`.  `base` is the value `detectWithHistory()`
returned for this reading; `insertFails`/`hasSettings` describe the external
persistence calls made if a trigger fires. -/
def handleNewData (vt : VehicleType) (st : AppState) (now : Nat) (raw : Reading)
    (base : DetectionResult) (insertFails hasSettings : Bool) : AppState :=
  let sx := lowPassFilter raw.accX st.prevAccel.1 (3/10)
  let sy := lowPassFilter raw.accY st.prevAccel.2.1 (3/10)
  let sz := lowPassFilter raw.accZ st.prevAccel.2.2 (3/10)
  let smoothed : Reading :=
    { accX := sx, accY := sy, accZ := sz,
      gyroX := raw.gyroX, gyroY := raw.gyroY, gyroZ := raw.gyroZ }
  let st1 : AppState :=
    { st with
      prevAccel := (sx, sy, sz)
      detectorHistory := st.detectorHistory ++ [smoothed] }
  let res := applyOverrides vt base sz
  if res.1 = true ∧ st1.activeAccident = none ∧ st1.isTriggered = false then
    handleAccidentDetected { st1 with isTriggered := true } now res.2
      insertFails hasSettings
  else st1

/-- `sendEmergencyAlerts` (lines 398–419): when the captured settings row
exists, post the `emergency_alert` request and mark the row
`{status: 'confirmed', emails_sent: true}`; in every case clear the active
accident and schedule the 5 000 ms latch-clearing timeout. -/
def sendEmergencyAlerts (st : AppState) (now : Nat) (accidentId : Nat)
    (hasSettings : Bool) : AppState :=
  let st1 : AppState :=
    if hasSettings then
      { st with
        alertsSent := st.alertsSent ++ [(.emergencyAlert, accidentId)]
        logs := updateLog st.logs accidentId fun l =>
          { l with status := .confirmed, emailsSent := true } }
    else st
  { st1 with
    activeAccident := none
    cooldownTimer := some (now + 5000) }

/-- The 30 000 ms escalation timeout firing: a `setTimeout` callback runs once,
at or after its scheduled time, and invokes `sendEmergencyAlerts` with the id
and settings captured when the timer was armed.  If no timer is armed, or its
time has not come, nothing happens. -/
def fireEscalationTimer (st : AppState) (now : Nat) : AppState :=
  match st.escalationTimer with
  | none => st
  | some (ft, id, hs) =>
      if ft ≤ now then
        sendEmergencyAlerts { st with escalationTimer := none } now id hs
      else st

/-- The 5 000 ms cooldown timeout firing: `isTriggered.current = false`,
once, at or after its scheduled time. -/
def fireCooldownTimer (st : AppState) (now : Nat) : AppState :=
  match st.cooldownTimer with
  | none => st
  | some ct =>
      if ct ≤ now then
        { st with isTriggered := false, cooldownTimer := none }
      else st

/-- `handleCancelAccident` (lines 421–430): only when an accident is active
AND the escalation timeout is armed — clear the timeout, mark the row
`{status: 'cancelled', user_responded: true}`, clear the active accident,
reset the detector (modelled from the spec: `reset()` clears the detector
history, §4.3), and schedule the 5 000 ms latch-clearing timeout. -/
def handleCancelAccident (st : AppState) (now : Nat) : AppState :=
  match st.activeAccident, st.escalationTimer with
  | some id, some _ =>
      { st with
        escalationTimer := none
        logs := updateLog st.logs id fun l =>
          { l with status := .cancelled, userResponded := true }
        activeAccident := none
        detectorHistory := []
        cooldownTimer := some (now + 5000) }
  | _, _ => st

/-- The external events that drive the state machine: a new sensor reading
(with the base detector verdict and the outcome of the external calls), a user
cancellation, and the runtime dispatching each of the two timeouts. -/
inductive Event where
  | newData (raw : Reading) (base : DetectionResult) (insertFails hasSettings : Bool)
  | cancel
  | escalationFire
  | cooldownFire
deriving DecidableEq, Repr

/-- One step of the event loop at wall-clock time `now`. -/
def step (vt : VehicleType) (st : AppState) (now : Nat) : Event → AppState
  | .newData raw base insertFails hasSettings =>
      handleNewData vt st now raw base insertFails hasSettings
  | .cancel => handleCancelAccident st now
  | .escalationFire => fireEscalationTimer st now
  | .cooldownFire => fireCooldownTimer st now

/-- Run a timed event trace through the state machine. -/
def run (vt : VehicleType) (st : AppState) : List (Nat × Event) → AppState
  | [] => st
  | (now, e) :: rest => run vt (step vt st now e) rest

/-- A resolved state, as produced by both resolution paths: the latch is still
set, a latch-clearing timeout is scheduled for instant `lt`, no accident is
active and no escalation timeout is armed. -/
def Quiesced (st : AppState) (lt : Nat) : Prop :=
  st.isTriggered = true ∧ st.cooldownTimer = some lt ∧
  st.activeAccident = none ∧ st.escalationTimer = none

/-- JavaScript's `Math.atan2(y, x)` on real inputs (signed zeros aside):
the angle of the point `(x, y)`, in `(-π, π]`. -/
noncomputable def atan2 (y x : ℝ) : ℝ :=
  if 0 < x then Real.arctan (y / x)
  else if x < 0 then
    (if 0 ≤ y then Real.arctan (y / x) + Real.pi else Real.arctan (y / x) - Real.pi)
  else if 0 < y then Real.pi / 2
  else if y < 0 then -(Real.pi / 2)
  else 0

/-- `calculateOrientation` (lines 178–183): pitch `atan2(acc.y, acc.z)`,
roll `atan2(-acc.x, sqrt(acc.y² + acc.z²))`, both converted to degrees;
the middle component is the constant `0`.  Input and output are
`(x, y, z)` triples. -/
noncomputable def calculateOrientation (acc : ℝ × ℝ × ℝ) : ℝ × ℝ × ℝ :=
  let pitchRad := atan2 acc.2.1 acc.2.2
  let rollRad := atan2 (-acc.1) (Real.sqrt (acc.2.1 * acc.2.1 + acc.2.2 * acc.2.2))
  (pitchRad * (180 / Real.pi), 0, rollRad * (180 / Real.pi))

/-- A raw reading whose smoothed z-axis qualifies as a scooter accident from
any recent filter state: `accZ = -10` smooths (alpha 0.3) to below `-0.5`
whenever the previous filter value is at most `1`. -/
def crashReading : Reading :=
  { accX := 0, accY := 0, accZ := -10, gyroX := 0, gyroY := 0, gyroZ := 0 }

/-- The state after the initial state processes `crashReading` while the
`accident_logs` insert fails (`insertFails = true`). -/
def failedInsertState : AppState :=
  handleNewData .scooter initialState 0 crashReading
    { isAccident := false, dangerPercentage := 0 } true true

/-- The state after the initial state processes `crashReading` with a
successful insert but no `user_settings` row (`hasSettings = false`). -/
def pendingNoSettingsState : AppState :=
  handleNewData .scooter initialState 0 crashReading
    { isAccident := false, dangerPercentage := 0 } false false

/-- A concrete Pending state used to instantiate the hypothesised theorems:
one pending row with id 0, latch set, escalation timeout armed for t = 30000
with a settings row captured. -/
def concretePendingState : AppState :=
  { activeAccident := some 0
    isTriggered := true
    escalationTimer := some (30000, 0, true)
    cooldownTimer := none
    prevAccel := (0, 0, 1)
    detectorHistory := [crashReading]
    logs := [{ id := 0, dangerPercentage := 100, status := .pending,
               userResponded := false, emailsSent := false }]
    alertsSent := [(.userConfirmation, 0)]
    nextId := 1 }

/-! ## Theorems -/

/-- **C3**: after the base detection result is computed, the vehicle-specific
overrides on the smoothed z-axis force: scooter `z < -0.5` → `(true, 100)`;
scooter `|z| < 0.4` → `(true, max danger 80)`; car `|z| < 0.3` →
`(true, max danger 90)`.  In particular scooter `z = -0.6` yields danger 100
and car `z = 0.25` yields danger ≥ 90, regardless of the base output. -/
theorem vehicle_overrides_spec (base : DetectionResult) (z : ℚ) :
    (z < -(1/2) → applyOverrides .scooter base z = (true, 100)) ∧
    (|z| < 2/5 → applyOverrides .scooter base z = (true, max base.dangerPercentage 80)) ∧
    (|z| < 3/10 → applyOverrides .car base z = (true, max base.dangerPercentage 90)) ∧
    applyOverrides .scooter base (-(3/5)) = (true, 100) ∧
    (applyOverrides .car base (1/4)).1 = true ∧
    90 ≤ (applyOverrides .car base (1/4)).2 := by
  have habs : |(1/4 : ℚ)| < 3/10 := by
    rw [abs_of_nonneg (by norm_num : (0:ℚ) ≤ 1/4)]
    norm_num
  refine ⟨?_, ?_, ?_, ?_, ?_, ?_⟩
  · intro h
    simp only [applyOverrides]
    rw [if_pos (Or.inl h), if_pos h]
  · intro h
    have h1 : ¬ (z < -(1/2)) := by
      have := abs_lt.mp h
      push_neg
      linarith
    simp only [applyOverrides]
    rw [if_pos (Or.inr h), if_neg h1]
  · intro h
    simp only [applyOverrides]
    rw [if_pos h]
  · have h : (-(3/5) : ℚ) < -(1/2) := by norm_num
    simp only [applyOverrides]
    rw [if_pos (Or.inl h), if_pos h]
  · simp only [applyOverrides]
    rw [if_pos habs]
  · simp only [applyOverrides]
    rw [if_pos habs]
    exact le_max_right _ _

/-- Witness for C3: concrete scooter and car inputs through the overrides. -/
theorem vehicle_overrides_spec_witness :
    applyOverrides .scooter { isAccident := false, dangerPercentage := 0 } (-(3/5)) =
      (true, 100) ∧
    applyOverrides .car { isAccident := false, dangerPercentage := 0 } (1/4) =
      (true, 90) := by
  have h1 := (vehicle_overrides_spec
    { isAccident := false, dangerPercentage := 0 } (-(3/5))).1 (by norm_num)
  have h2 := (vehicle_overrides_spec
    { isAccident := false, dangerPercentage := 0 } (1/4)).2.2.1
    (by rw [abs_of_nonneg (by norm_num : (0:ℚ) ≤ 1/4)]; norm_num)
  refine ⟨h1, ?_⟩
  simpa using h2

/-- **C6**: the heartbeat computes `connected = (now - lastPacketTime) < 10000`
with a strict comparison: with the last reading at 0, connected at 9999 ms,
disconnected at 10000 ms and at 10001 ms. -/
theorem heartbeat_strict_threshold :
    heartbeatConnected 9999 0 = true ∧
    heartbeatConnected 10001 0 = false ∧
    heartbeatConnected 10000 0 = false ∧
    ∀ now lastPacketTime : ℤ,
      heartbeatConnected now lastPacketTime = true ↔ now - lastPacketTime < 10000 := by
  refine ⟨by decide, by decide, by decide, ?_⟩
  intro now lp
  simp [heartbeatConnected]

/-- **C1**: while an accident is Pending (`activeAccident` set), processing any
reading — qualifying or not — creates no second event, arms no second timer,
queues nothing and merges nothing: logs, timers, alerts, the latch, the active
event and the id generator are all unchanged. -/
theorem pending_trigger_ignored (vt : VehicleType) (st : AppState) (now : Nat)
    (raw : Reading) (base : DetectionResult) (insertFails hasSettings : Bool)
    (a : Nat) (h : st.activeAccident = some a) :
    (handleNewData vt st now raw base insertFails hasSettings).activeAccident = some a ∧
    (handleNewData vt st now raw base insertFails hasSettings).logs = st.logs ∧
    (handleNewData vt st now raw base insertFails hasSettings).escalationTimer =
      st.escalationTimer ∧
    (handleNewData vt st now raw base insertFails hasSettings).cooldownTimer =
      st.cooldownTimer ∧
    (handleNewData vt st now raw base insertFails hasSettings).alertsSent =
      st.alertsSent ∧
    (handleNewData vt st now raw base insertFails hasSettings).isTriggered =
      st.isTriggered ∧
    (handleNewData vt st now raw base insertFails hasSettings).nextId = st.nextId := by
  unfold handleNewData
  simp [h]

/-- Witness for C1: a qualifying reading processed in a concrete Pending state
changes neither the log store nor the armed timer. -/
theorem pending_trigger_ignored_witness :
    (handleNewData .scooter concretePendingState 1000 crashReading
        { isAccident := true, dangerPercentage := 95 } false true).logs =
      concretePendingState.logs ∧
    (handleNewData .scooter concretePendingState 1000 crashReading
        { isAccident := true, dangerPercentage := 95 } false true).escalationTimer =
      concretePendingState.escalationTimer := by
  have h := pending_trigger_ignored .scooter concretePendingState 1000 crashReading
    { isAccident := true, dangerPercentage := 95 } false true 0 rfl
  exact ⟨h.2.1, h.2.2.1⟩

/-- **C2** (code bug): when the `accident_logs` insert fails on a qualifying
reading, no Pending transition happens and no timer is armed — but the
`isTriggered` latch, set before the insert was attempted, is never cleared
(no cooldown is scheduled), so a later qualifying reading with a succeeding
insert still cannot trigger: detection cannot re-attempt. -/
theorem insert_failure_blocks_retrigger :
    failedInsertState.activeAccident = none ∧
    failedInsertState.escalationTimer = none ∧
    failedInsertState.logs = [] ∧
    failedInsertState.alertsSent = [] ∧
    failedInsertState.isTriggered = true ∧
    failedInsertState.cooldownTimer = none ∧
    (handleNewData .scooter failedInsertState 1000 crashReading
        { isAccident := true, dangerPercentage := 100 } false true).logs = [] ∧
    (handleNewData .scooter failedInsertState 1000 crashReading
        { isAccident := true, dangerPercentage := 100 } false true).activeAccident =
      none ∧
    (handleNewData .scooter failedInsertState 1000 crashReading
        { isAccident := true, dangerPercentage := 100 } false true).isTriggered =
      true := by
  norm_num [failedInsertState, handleNewData, initialState, crashReading,
    lowPassFilter, applyOverrides, handleAccidentDetected]

/-- **C9**: the all-zero accelerometer vector yields the defined zero
orientation (pitch 0, roll 0), not an error. -/
theorem calculateOrientation_zero_vector :
    calculateOrientation (0, 0, 0) = (0, 0, 0) := by
  norm_num [calculateOrientation, atan2]

/-- `Math.atan2` is invariant under scaling both arguments by a positive
factor. -/
theorem atan2_smul (k y x : ℝ) (hk : 0 < k) : atan2 (k * y) (k * x) = atan2 y x := by
  have hk0 : k ≠ 0 := ne_of_gt hk
  have hdiv : k * y / (k * x) = y / x := mul_div_mul_left y x hk0
  rcases lt_trichotomy 0 x with hx | hx | hx
  · have hkx : 0 < k * x := mul_pos hk hx
    simp [atan2, hx, hkx, hdiv]
  · have hx' : x = 0 := hx.symm
    subst hx'
    rcases lt_trichotomy 0 y with hy | hy | hy
    · have hky : 0 < k * y := mul_pos hk hy
      simp [atan2, hy, hky]
    · have hy' : y = 0 := hy.symm
      subst hy'
      simp [atan2]
    · have hky : k * y < 0 := mul_neg_of_pos_of_neg hk hy
      simp [atan2, hy, hky, hy.not_lt, hky.not_lt, not_le_of_gt hy, not_le_of_gt hky]
  · have hkx : k * x < 0 := mul_neg_of_pos_of_neg hk hx
    by_cases hy : 0 ≤ y
    · have hky : 0 ≤ k * y := mul_nonneg hk.le hy
      simp [atan2, hx, hkx, hx.not_lt, hkx.not_lt, hy, hky, hdiv]
    · have hy' : y < 0 := lt_of_not_ge hy
      have hky : k * y < 0 := mul_neg_of_pos_of_neg hk hy'
      simp [atan2, hx, hkx, hx.not_lt, hkx.not_lt, hy, not_le_of_gt hky, hdiv]

/-- **C8**: the orientation estimate is invariant under uniform positive
scaling of the accelerometer vector: `calculateOrientation (k·v) =
calculateOrientation v` for every `k > 0`. -/
theorem calculateOrientation_scale_invariant (k x y z : ℝ) (hk : 0 < k) :
    calculateOrientation (k * x, k * y, k * z) = calculateOrientation (x, y, z) := by
  have h1 : atan2 (k * y) (k * z) = atan2 y z := atan2_smul k y z hk
  have hsq : (k * y) * (k * y) + (k * z) * (k * z) = k ^ 2 * (y * y + z * z) := by ring
  have hsqrt : Real.sqrt ((k * y) * (k * y) + (k * z) * (k * z)) =
      k * Real.sqrt (y * y + z * z) := by
    rw [hsq, Real.sqrt_mul (by positivity), Real.sqrt_sq hk.le]
  have h2 : atan2 (-(k * x)) (Real.sqrt ((k * y) * (k * y) + (k * z) * (k * z))) =
      atan2 (-x) (Real.sqrt (y * y + z * z)) := by
    rw [hsqrt, show -(k * x) = k * (-x) by ring]
    exact atan2_smul k (-x) _ hk
  simp only [calculateOrientation, h1, h2]

/-- Witness for C8: doubling the vector `(1, 2, 3)` leaves the orientation
estimate unchanged. -/
theorem calculateOrientation_scale_invariant_witness :
    calculateOrientation (2 * 1, 2 * 2, 2 * 3) = calculateOrientation (1, 2, 3) :=
  calculateOrientation_scale_invariant 2 1 2 3 (by norm_num)

/-- Closed form of the iterated filter: the residual error decays by a factor
`1 - alpha` per application. -/
theorem smoothIter_closed (c s₀ alpha : ℚ) (n : Nat) :
    c - smoothIter c s₀ alpha n = (1 - alpha) ^ n * (c - s₀) := by
  induction n with
  | zero => simp [smoothIter]
  | succ n ih =>
      have h : c - smoothIter c s₀ alpha (n + 1) =
          (1 - alpha) * (c - smoothIter c s₀ alpha n) := by
        simp only [smoothIter, lowPassFilter]
        ring
      rw [h, ih]
      ring

/-- **C7**: the filter computes `result = previous + alpha * (raw - previous)`
per application; for every `alpha ∈ (0,1]`, iterating it on a constant input
converges (the error drops below any `ε` from some `N` on) and moves weakly
monotonically toward the constant, staying on its starting side, whether the
filter state starts below or above the constant. -/
theorem lowPassFilter_converges (c s₀ alpha : ℚ) (ha : 0 < alpha) (ha1 : alpha ≤ 1) :
    (∀ n, smoothIter c s₀ alpha (n + 1) =
      smoothIter c s₀ alpha n + alpha * (c - smoothIter c s₀ alpha n)) ∧
    (∀ ε : ℚ, 0 < ε → ∃ N, ∀ n, N ≤ n → |smoothIter c s₀ alpha n - c| < ε) ∧
    (s₀ ≤ c → ∀ n, smoothIter c s₀ alpha n ≤ smoothIter c s₀ alpha (n + 1) ∧
      smoothIter c s₀ alpha n ≤ c) ∧
    (c ≤ s₀ → ∀ n, smoothIter c s₀ alpha (n + 1) ≤ smoothIter c s₀ alpha n ∧
      c ≤ smoothIter c s₀ alpha n) := by
  have h0 : (0 : ℚ) ≤ 1 - alpha := by linarith
  refine ⟨fun n => rfl, ?_, ?_, ?_⟩
  · intro ε hε
    have h2 : 1 - alpha < 1 := by linarith
    have hd : (0 : ℚ) < |c - s₀| + 1 := by positivity
    have hpos : (0 : ℚ) < ε / (|c - s₀| + 1) := by positivity
    obtain ⟨N, hN⟩ := exists_pow_lt_of_lt_one hpos h2
    refine ⟨N, fun n hn => ?_⟩
    have habs : |smoothIter c s₀ alpha n - c| = (1 - alpha) ^ n * |c - s₀| := by
      rw [abs_sub_comm, ← abs_of_nonneg (pow_nonneg h0 n), ← abs_mul,
        ← smoothIter_closed]
    rw [habs]
    have hmono : (1 - alpha) ^ n ≤ (1 - alpha) ^ N :=
      pow_le_pow_of_le_one h0 (by linarith) hn
    have hNlt : (1 - alpha) ^ N * (|c - s₀| + 1) < ε := (lt_div_iff₀ hd).mp hN
    calc (1 - alpha) ^ n * |c - s₀|
        ≤ (1 - alpha) ^ N * |c - s₀| :=
          mul_le_mul_of_nonneg_right hmono (abs_nonneg _)
      _ ≤ (1 - alpha) ^ N * (|c - s₀| + 1) :=
          mul_le_mul_of_nonneg_left (by linarith) (pow_nonneg h0 N)
      _ < ε := hNlt
  · intro hs n
    have hle : ∀ m, smoothIter c s₀ alpha m ≤ c := by
      intro m
      induction m with
      | zero => simpa [smoothIter] using hs
      | succ m ihm =>
          simp only [smoothIter, lowPassFilter]
          nlinarith [mul_nonneg h0 (by linarith : (0:ℚ) ≤ c - smoothIter c s₀ alpha m)]
    refine ⟨?_, hle n⟩
    have := hle n
    simp only [smoothIter, lowPassFilter]
    nlinarith [mul_nonneg ha.le (by linarith : (0:ℚ) ≤ c - smoothIter c s₀ alpha n)]
  · intro hs n
    have hge : ∀ m, c ≤ smoothIter c s₀ alpha m := by
      intro m
      induction m with
      | zero => simpa [smoothIter] using hs
      | succ m ihm =>
          simp only [smoothIter, lowPassFilter]
          nlinarith [mul_nonneg h0 (by linarith : (0:ℚ) ≤ smoothIter c s₀ alpha m - c)]
    refine ⟨?_, hge n⟩
    have := hge n
    simp only [smoothIter, lowPassFilter]
    nlinarith [mul_nonneg ha.le (by linarith : (0:ℚ) ≤ smoothIter c s₀ alpha n - c)]

/-- Witness for C7: alpha 1/2, constant 1, start 0 — convergence below 1/8
and the first step moves up toward the constant. -/
theorem lowPassFilter_converges_witness :
    (∃ N, ∀ n, N ≤ n → |smoothIter 1 0 (1/2) n - 1| < 1/8) ∧
    smoothIter 1 0 (1/2) 0 ≤ smoothIter 1 0 (1/2) 1 := by
  have h := lowPassFilter_converges 1 0 (1/2) (by norm_num) (by norm_num)
  exact ⟨h.2.1 (1/8) (by norm_num), (h.2.2.1 (by norm_num) 0).1⟩

/-- In a resolved (quiesced) state, any event dated before the cooldown
instant changes neither the log store nor the alert history, and leaves the
state quiesced. -/
theorem quiesced_step (vt : VehicleType) (st : AppState) (now : Nat) (e : Event)
    (lt : Nat) (hq : Quiesced st lt) (hnow : now < lt) :
    Quiesced (step vt st now e) lt ∧
    (step vt st now e).logs = st.logs ∧
    (step vt st now e).alertsSent = st.alertsSent := by
  obtain ⟨h1, h2, h3, h4⟩ := hq
  cases e with
  | newData raw base insertFails hasSettings =>
      simp [step, handleNewData, Quiesced, h1, h2, h3, h4]
  | cancel =>
      simp [step, handleCancelAccident, Quiesced, h1, h2, h3, h4]
  | escalationFire =>
      simp [step, fireEscalationTimer, Quiesced, h1, h2, h3, h4]
  | cooldownFire =>
      simp [step, fireCooldownTimer, Quiesced, h1, h2, h3, h4, not_le.mpr hnow]

/-- Trace version of `quiesced_step`: a whole event trace dated before the
cooldown instant leaves logs and alerts untouched and the latch set. -/
theorem quiesced_run (vt : VehicleType) (st : AppState) (tr : List (Nat × Event))
    (lt : Nat) (hq : Quiesced st lt) (htr : ∀ p ∈ tr, p.1 < lt) :
    Quiesced (run vt st tr) lt ∧
    (run vt st tr).logs = st.logs ∧
    (run vt st tr).alertsSent = st.alertsSent ∧
    (run vt st tr).isTriggered = true := by
  induction tr generalizing st with
  | nil => exact ⟨hq, rfl, rfl, hq.1⟩
  | cons p rest ih =>
      obtain ⟨now, e⟩ := p
      have hstep := quiesced_step vt st now e lt hq (htr (now, e) (by simp))
      have hrest := ih (step vt st now e) hstep.1
        (fun q hquot => htr q (by simp [hquot]))
      simp only [run]
      exact ⟨hrest.1, hrest.2.1.trans hstep.2.1, hrest.2.2.1.trans hstep.2.2,
        hrest.2.2.2⟩

/-- **C5**: cancelling while Pending (active event set, escalation timeout
armed, latch set) clears the timeout, marks the row cancelled with
`user_responded`, clears the active event, resets the detector history, sends
no emergency alert, and schedules the latch to clear only at `now + 5000`;
moreover, from the cancelled state — and likewise from any state the
Confirmed (timeout) path produces — no event trace dated before the cooldown
instant can change the log store or the alert history, and the latch stays
set throughout. -/
theorem cancellation_spec (vt : VehicleType) (st : AppState) (now : Nat)
    (id : Nat) (t : Nat × Nat × Bool)
    (h1 : st.activeAccident = some id) (h2 : st.escalationTimer = some t)
    (h3 : st.isTriggered = true) :
    (handleCancelAccident st now).escalationTimer = none ∧
    (∀ l ∈ (handleCancelAccident st now).logs, l.id = id →
      l.status = .cancelled ∧ l.userResponded = true) ∧
    (handleCancelAccident st now).activeAccident = none ∧
    (handleCancelAccident st now).detectorHistory = [] ∧
    (handleCancelAccident st now).alertsSent = st.alertsSent ∧
    (handleCancelAccident st now).cooldownTimer = some (now + 5000) ∧
    (∀ tr : List (Nat × Event), (∀ p ∈ tr, p.1 < now + 5000) →
      (run vt (handleCancelAccident st now) tr).logs =
        (handleCancelAccident st now).logs ∧
      (run vt (handleCancelAccident st now) tr).alertsSent = st.alertsSent ∧
      (run vt (handleCancelAccident st now) tr).isTriggered = true) ∧
    (∀ st₂ n₂ ft₂ id₂ hs₂, st₂.isTriggered = true →
      st₂.escalationTimer = some (ft₂, id₂, hs₂) → ft₂ ≤ n₂ →
      ∀ tr : List (Nat × Event), (∀ p ∈ tr, p.1 < n₂ + 5000) →
        (run vt (fireEscalationTimer st₂ n₂) tr).logs =
          (fireEscalationTimer st₂ n₂).logs ∧
        (run vt (fireEscalationTimer st₂ n₂) tr).alertsSent =
          (fireEscalationTimer st₂ n₂).alertsSent ∧
        (run vt (fireEscalationTimer st₂ n₂) tr).isTriggered = true) := by
  obtain ⟨t1, t2, t3⟩ := t
  have hc : handleCancelAccident st now =
      { st with
        escalationTimer := none
        logs := updateLog st.logs id fun l =>
          { l with status := .cancelled, userResponded := true }
        activeAccident := none
        detectorHistory := []
        cooldownTimer := some (now + 5000) } := by
    unfold handleCancelAccident
    rw [h1, h2]
  have hlogs : ∀ l ∈ (handleCancelAccident st now).logs, l.id = id →
      l.status = .cancelled ∧ l.userResponded = true := by
    rw [hc]
    intro l hl hid
    simp only [updateLog, List.mem_map] at hl
    obtain ⟨l₀, _, rfl⟩ := hl
    by_cases h : l₀.id = id
    · simp [h]
    · simp only [if_neg h] at hid ⊢
      exact absurd hid h
  have hq : Quiesced (handleCancelAccident st now) (now + 5000) := by
    rw [hc]
    exact ⟨h3, rfl, rfl, rfl⟩
  refine ⟨by rw [hc], hlogs, by rw [hc], by rw [hc], by rw [hc], by rw [hc],
    ?_, ?_⟩
  · intro tr htr
    have hr := quiesced_run vt _ tr (now + 5000) hq htr
    exact ⟨hr.2.1, hr.2.2.1.trans (by rw [hc]), hr.2.2.2⟩
  · intro st₂ n₂ ft₂ id₂ hs₂ ht hteq hle tr htr
    have hfe : fireEscalationTimer st₂ n₂ =
        sendEmergencyAlerts { st₂ with escalationTimer := none } n₂ id₂ hs₂ := by
      unfold fireEscalationTimer
      rw [hteq]
      simp [hle]
    have hq₂ : Quiesced (fireEscalationTimer st₂ n₂) (n₂ + 5000) := by
      rw [hfe]
      unfold sendEmergencyAlerts
      cases hs₂ <;> exact ⟨ht, rfl, rfl, rfl⟩
    have hr := quiesced_run vt _ tr (n₂ + 5000) hq₂ htr
    exact hr.2

/-- Witness for C5: cancelling the concrete Pending state at t = 5000 sends
no alert, clears the history, and re-arms only at t = 10000. -/
theorem cancellation_spec_witness :
    (handleCancelAccident concretePendingState 5000).alertsSent =
      concretePendingState.alertsSent ∧
    (handleCancelAccident concretePendingState 5000).detectorHistory = [] ∧
    (handleCancelAccident concretePendingState 5000).cooldownTimer =
      some 10000 := by
  have h := cancellation_spec .scooter concretePendingState 5000 0
    (30000, 0, true) rfl rfl rfl
  refine ⟨h.2.2.2.2.1, h.2.2.2.1, ?_⟩
  have := h.2.2.2.2.2.1
  norm_num at this
  exact this

/-- **C4** (amended: provided the user-settings record captured at event
creation exists): when the 30 000 ms escalation timeout elapses on an
uncancelled Pending event, the emergency alert is posted exactly once, the
stored row is marked confirmed with `emails_sent`, the active event and the
timeout are cleared, and the same `now + 5000` re-arm cooldown is scheduled
as on the cancellation path; a fired timeout cannot fire again. -/
theorem escalation_confirm_spec (st : AppState) (now ft id : Nat)
    (_h1 : st.activeAccident = some id)
    (h2 : st.escalationTimer = some (ft, id, true))
    (h3 : ft ≤ now) :
    (fireEscalationTimer st now).alertsSent =
      st.alertsSent ++ [(.emergencyAlert, id)] ∧
    (∀ l ∈ (fireEscalationTimer st now).logs, l.id = id →
      l.status = .confirmed ∧ l.emailsSent = true) ∧
    (fireEscalationTimer st now).activeAccident = none ∧
    (fireEscalationTimer st now).escalationTimer = none ∧
    (fireEscalationTimer st now).cooldownTimer = some (now + 5000) ∧
    (∀ n₂, fireEscalationTimer (fireEscalationTimer st now) n₂ =
      fireEscalationTimer st now) := by
  have hfe : fireEscalationTimer st now =
      sendEmergencyAlerts { st with escalationTimer := none } now id true := by
    unfold fireEscalationTimer
    rw [h2]
    simp [h3]
  have hnone : (fireEscalationTimer st now).escalationTimer = none := by
    rw [hfe]
    rfl
  have hlogs_eq : (fireEscalationTimer st now).logs =
      updateLog st.logs id fun l =>
        { l with status := .confirmed, emailsSent := true } := by
    rw [hfe]
    rfl
  refine ⟨by rw [hfe]; rfl, ?_, by rw [hfe]; rfl, hnone, by rw [hfe]; rfl, ?_⟩
  · intro l hl hid
    rw [hlogs_eq] at hl
    simp only [updateLog, List.mem_map] at hl
    obtain ⟨l₀, _, rfl⟩ := hl
    by_cases h : l₀.id = id
    · simp [h]
    · simp only [if_neg h] at hid ⊢
      exact absurd hid h
  · intro n₂
    have hgen : ∀ s : AppState, s.escalationTimer = none →
        fireEscalationTimer s n₂ = s := by
      intro s hsn
      unfold fireEscalationTimer
      rw [hsn]
    exact hgen _ hnone

/-- Witness for C4: firing the concrete Pending state's timeout at t = 30000
posts the emergency alert once and schedules the cooldown for t = 35000. -/
theorem escalation_confirm_spec_witness :
    (fireEscalationTimer concretePendingState 30000).alertsSent =
      concretePendingState.alertsSent ++ [(.emergencyAlert, 0)] ∧
    (fireEscalationTimer concretePendingState 30000).cooldownTimer =
      some 35000 := by
  have h := escalation_confirm_spec concretePendingState 30000 30000 0
    rfl rfl (le_refl _)
  refine ⟨h.1, ?_⟩
  have := h.2.2.2.2.1
  norm_num at this
  exact this

/-- Counterexample for C4 as stated: a reachable Pending event created while
no `user_settings` row exists; its timeout elapses uncancelled, the active
event is cleared, but no emergency alert is posted and the stored row stays
pending. -/
theorem escalation_confirm_needs_settings :
    pendingNoSettingsState.activeAccident = some 0 ∧
    pendingNoSettingsState.escalationTimer = some (30000, 0, false) ∧
    (fireEscalationTimer pendingNoSettingsState 30000).alertsSent = [] ∧
    (fireEscalationTimer pendingNoSettingsState 30000).activeAccident = none ∧
    ∀ l ∈ (fireEscalationTimer pendingNoSettingsState 30000).logs,
      l.status = .pending := by
  norm_num [pendingNoSettingsState, handleNewData, initialState, crashReading,
    lowPassFilter, applyOverrides, handleAccidentDetected, fireEscalationTimer,
    sendEmergencyAlerts]

/-- **C10**: the Confirmed (timeout) resolution leaves the detector history
untouched and the latch as it was, scheduling only the 5 000 ms cooldown,
while `reset()` — clearing the history — happens exactly on the cancellation
path (whenever its guard passes). -/
theorem confirm_preserves_detector_history (st : AppState) (now ft id : Nat)
    (hs : Bool) (h2 : st.escalationTimer = some (ft, id, hs)) (h3 : ft ≤ now) :
    (fireEscalationTimer st now).detectorHistory = st.detectorHistory ∧
    (fireEscalationTimer st now).isTriggered = st.isTriggered ∧
    (fireEscalationTimer st now).cooldownTimer = some (now + 5000) ∧
    ∀ st₂ n₂ a t₂, st₂.activeAccident = some a → st₂.escalationTimer = some t₂ →
      (handleCancelAccident st₂ n₂).detectorHistory = [] := by
  have hfe : fireEscalationTimer st now =
      sendEmergencyAlerts { st with escalationTimer := none } now id hs := by
    unfold fireEscalationTimer
    rw [h2]
    simp [h3]
  refine ⟨?_, ?_, ?_, ?_⟩
  · rw [hfe]
    unfold sendEmergencyAlerts
    cases hs <;> rfl
  · rw [hfe]
    unfold sendEmergencyAlerts
    cases hs <;> rfl
  · rw [hfe]
    unfold sendEmergencyAlerts
    cases hs <;> rfl
  · intro st₂ n₂ a t₂ ha ht
    unfold handleCancelAccident
    rw [ha, ht]

/-- Witness for C10: firing the concrete Pending state's timeout leaves its
one-reading history in place. -/
theorem confirm_preserves_detector_history_witness :
    (fireEscalationTimer concretePendingState 30000).detectorHistory =
      concretePendingState.detectorHistory ∧
    (fireEscalationTimer concretePendingState 30000).isTriggered =
      concretePendingState.isTriggered :=
  let h := confirm_preserves_detector_history concretePendingState 30000 30000 0
    true rfl (le_refl _)
  ⟨h.1, h.2.1⟩

end SafeRide
